import Mathlib

/-!
Verification of the interactive script-execution session manager
(`app/script_runner.py`): a shallow embedding of the session data model,
the registry operations, and the background execution loop, together with
proofs of the behavioural properties claimed for them.

Modelling conventions:
* timestamps are integers (the claims only compare them, never do float
  arithmetic);
* the pexpect process handle is `Option Bool`: `none` means no process was
  ever spawned, `some b` means a process exists and `b` is its liveness
  (`isalive()`);
* each iteration of the execution loop consumes one `LoopEvent`, recording
  the wall-clock value read at the top of the iteration and the outcome of
  the `read_nonblocking` call the iteration would perform;
* per-session and registry locks serialise all accesses in the source, so
  the operations are modelled as sequential state transformers.
-/

set_option autoImplicit false

namespace ScriptRunner

/-- `TIMEOUT_SECONDS = 300` from the source configuration. -/
def TIMEOUT_SECONDS : Int := 300

/-- `KEEPALIVE_INTERVAL = 60` from the source configuration. -/
def KEEPALIVE_INTERVAL : Int := 60

/-- A tagged message placed on a session's output queue: the dictionaries
`{'type': 'output'|'error'|'exit'|'timeout', ...}` built by the source. -/
inductive Msg where
  | output (text : String)
  | error (text : String)
  | exit (code : Int)
  | timeout
deriving Repr, DecidableEq

/-- Terminal messages are `exit`, `timeout` and `error`. -/
def Msg.isTerminal : Msg → Bool
  | .output _ => false
  | _ => true

/-- Recogniser for `error` messages. -/
def Msg.isError : Msg → Bool
  | .error _ => true
  | _ => false

/-- The `ScriptSession` dataclass. The `lock` field is not modelled (locking
serialises accesses; the model is already sequential), and the `thread`
handle is modelled by whether it has been set. -/
structure ScriptSession where
  session_id : String
  script_path : String
  process : Option Bool := none
  thread : Bool := false
  output_queue : List Msg := []
  is_running : Bool := false
  exit_code : Option Int := none
  last_activity : Int := 0
deriving Repr, DecidableEq

/-- The module-level `_sessions` dictionary: an association list from
session id to session. A Python dict never holds a key twice, captured by
the `keysNodup` predicate below. -/
abbrev Registry := List (String × ScriptSession)

/-- Keys of the registry are pairwise distinct (dict semantics). -/
def keysNodup (reg : Registry) : Prop := (reg.map Prod.fst).Nodup

instance (reg : Registry) : Decidable (keysNodup reg) :=
  List.nodupDecidable (reg.map Prod.fst)

/-- `_sessions.get(session_id)`: first entry with the given key. -/
def getReg (reg : Registry) (sid : String) : Option ScriptSession :=
  match reg with
  | [] => none
  | (k, v) :: rest => if k = sid then some v else getReg rest sid

/-- In-place mutation of the session object stored under `sid` (the dict
holds a reference; mutating the session is visible through the dict). -/
def setReg (reg : Registry) (sid : String) (s : ScriptSession) : Registry :=
  match reg with
  | [] => []
  | (k, v) :: rest => if k = sid then (k, s) :: rest else (k, v) :: setReg rest sid s

/-- `_sessions.pop(session_id, None)`: remove the entry with the given key. -/
def eraseReg (reg : Registry) (sid : String) : Registry :=
  match reg with
  | [] => []
  | (k, v) :: rest => if k = sid then rest else (k, v) :: eraseReg rest sid

/-- The session object built by `create_session` (uuid generation is
replaced by an explicit id parameter; `last_activity` defaults to the
creation time as `field(default_factory=time.time)` does). -/
def mkSession (sid path : String) (now : Int) : ScriptSession :=
  { session_id := sid, script_path := path, last_activity := now }

/-- `create_session`: allocate a fresh session and insert it. -/
def create_session (reg : Registry) (sid path : String) (now : Int) : Registry :=
  (sid, mkSession sid path now) :: reg

/-- `update_activity`: refresh `last_activity`; `False` when unknown. -/
def update_activity (reg : Registry) (sid : String) (now : Int) : Bool × Registry :=
  match getReg reg sid with
  | none => (false, reg)
  | some s => (true, setReg reg sid { s with last_activity := now })

/-- Outcome of the `read_nonblocking(size=1, timeout=0.1)` call in one loop
iteration: data was read, the read timed out (`pexpect.TIMEOUT`), the
process reached EOF (`pexpect.EOF`, carrying `exitstatus`), or the read
raised some other exception. -/
inductive ReadResult where
  | data (text : String)
  | readTimedOut
  | eof (exitstatus : Option Int)
  | exn (msg : String)
deriving Repr, DecidableEq

/-- One iteration of the execution loop: the value of `time.time()` at the
top-of-loop timeout check, and what the read would return. -/
structure LoopEvent where
  now : Int
  read : ReadResult
deriving Repr, DecidableEq

/-- How a run of `_run_script` ended. -/
inductive RunExit where
  | timedOut
  | exited
  | readError
  | spawnError
  | pending
deriving Repr, DecidableEq

/-- The `while True` loop of `_run_script`. Each iteration first checks the
inactivity timeout, then performs the read; `pexpect.TIMEOUT` is ignored,
`pexpect.EOF` closes the process and appends the exit message, and any
other exception from the read is caught by the inner handler, which only
logs and breaks. Exhausting the event list leaves the run `pending`. -/
def runLoop : List LoopEvent → ScriptSession → ScriptSession × RunExit
  | [], s => (s, .pending)
  | e :: es, s =>
    if e.now - s.last_activity > TIMEOUT_SECONDS then
      ({ s with output_queue := s.output_queue ++ [Msg.timeout] }, .timedOut)
    else
      match e.read with
      | .data t =>
          if t = "" then runLoop es s
          else runLoop es { s with output_queue := s.output_queue ++ [Msg.output t] }
      | .readTimedOut => runLoop es s
      | .eof ec =>
          ({ s with process := some false,
                    exit_code := ec,
                    is_running := false,
                    output_queue := s.output_queue ++ [Msg.exit (ec.getD 0)] }, .exited)
      | .exn _ => (s, .readError)

/-- The `finally:` block of `_run_script`: force-terminate the process if it
is still alive, and clear `is_running`. -/
def runFinally (p : ScriptSession × RunExit) : ScriptSession × RunExit :=
  match p.1.process with
  | some true => ({ p.1 with process := some false, is_running := false }, p.2)
  | _ => ({ p.1 with is_running := false }, p.2)

/-- Whether `pexpect.spawn` succeeds; on failure the raised exception's
message reaches the outer handler of `_run_script`. -/
inductive SpawnResult where
  | ok
  | fail (msg : String)
deriving Repr, DecidableEq

/-- `_run_script`: spawn the process (on failure the outer handler clears
`is_running` and appends the error message), mark the session running,
stamp `last_activity`, drive the loop, then run the `finally:` block. -/
def runScript (spawn : SpawnResult) (startNow : Int) (events : List LoopEvent)
    (s : ScriptSession) : ScriptSession × RunExit :=
  runFinally
    (match spawn with
     | .fail msg =>
         ({ s with is_running := false,
                   output_queue :=
                     s.output_queue ++ [Msg.error ("Błąd wykonania skryptu: " ++ msg)] },
          .spawnError)
     | .ok =>
         runLoop events
           { s with process := some true, is_running := true, last_activity := startNow })

/-- `start_execution`: `False` when the session is unknown or already
running; otherwise clear the queue and exit code, stamp `last_activity`,
and launch the worker thread. -/
def start_execution (reg : Registry) (sid : String) (now : Int) : Bool × Registry :=
  match getReg reg sid with
  | none => (false, reg)
  | some s =>
    if s.is_running then (false, reg)
    else
      (true, setReg reg sid
        { s with output_queue := [], exit_code := none, last_activity := now,
                 thread := true })

/-- `get_output`: return the queued messages and clear the queue; the empty
list when the session is unknown. -/
def get_output (reg : Registry) (sid : String) : List Msg × Registry :=
  match getReg reg sid with
  | none => ([], reg)
  | some s => (s.output_queue, setReg reg sid { s with output_queue := [] })

/-- `is_running`: snapshot of the running flag; `False` when unknown. -/
def is_running (reg : Registry) (sid : String) : Bool :=
  match getReg reg sid with
  | none => false
  | some s => s.is_running

/-- `destroy_session`: `False` when unknown; otherwise force-terminate a
live process, clear `is_running`, and remove the registry entry. -/
def destroy_session (reg : Registry) (sid : String) : Bool × Registry :=
  match getReg reg sid with
  | none => (false, reg)
  | some _ => (true, eraseReg reg sid)

/-- `cleanup_old_sessions`: collect the ids of sessions that are too old and
not running, then destroy each of them. -/
def cleanup_old_sessions (reg : Registry) (now max_age_seconds : Int) : Registry :=
  let to_remove :=
    (reg.filter (fun p =>
      decide (now - p.2.last_activity > max_age_seconds) && !p.2.is_running)).map Prod.fst
  to_remove.foldl (fun r sid => (destroy_session r sid).2) reg

/-- The messages a run appended to the queue, given the pre-run session. -/
def newMsgs (s s2 : ScriptSession) : List Msg :=
  s2.output_queue.drop s.output_queue.length

/-- Number of messages satisfying `p`. -/
def countMsgs (p : Msg → Bool) (l : List Msg) : Nat := (l.filter p).length

/-- No message of any kind follows a terminal message in `l`. -/
def noneAfterTerminal : List Msg → Bool
  | [] => true
  | m :: rest => if m.isTerminal then rest.isEmpty else noneAfterTerminal rest

/-- Number of terminal messages a run ending the given way appends. -/
def terminalCountOf : RunExit → Nat
  | .timedOut => 1
  | .exited => 1
  | .spawnError => 1
  | .readError => 0
  | .pending => 0

/-- Whether the process handle denotes a live process. -/
def aliveB : Option Bool → Bool
  | some true => true
  | _ => false

/-! ### Registry lemmas -/

theorem getReg_eq_none_of_not_mem (sid : String) :
    ∀ reg : Registry, sid ∉ reg.map Prod.fst → getReg reg sid = none := by
  intro reg
  induction reg with
  | nil => intro _; rfl
  | cons p rest ih =>
    intro h
    obtain ⟨k, v⟩ := p
    simp only [List.map_cons, List.mem_cons] at h
    push_neg at h
    simp only [getReg, if_neg (Ne.symm h.1)]
    exact ih h.2

theorem getReg_some_mem (sid : String) (s : ScriptSession) :
    ∀ reg : Registry, getReg reg sid = some s → (sid, s) ∈ reg := by
  intro reg
  induction reg with
  | nil => intro h; simp [getReg] at h
  | cons p rest ih =>
    intro h
    obtain ⟨k, v⟩ := p
    by_cases hk : k = sid
    · simp only [getReg, if_pos hk] at h
      subst hk
      simp [Option.some.injEq] at h
      simp [h]
    · simp only [getReg, if_neg hk] at h
      exact List.mem_cons_of_mem _ (ih h)

theorem mem_getReg_of_nodup (sid : String) (s : ScriptSession) :
    ∀ reg : Registry, keysNodup reg → (sid, s) ∈ reg → getReg reg sid = some s := by
  intro reg
  induction reg with
  | nil => intro _ h; simp at h
  | cons p rest ih =>
    intro hnd h
    obtain ⟨k, v⟩ := p
    simp only [keysNodup, List.map_cons, List.nodup_cons] at hnd
    rcases List.mem_cons.1 h with heq | hmem
    · obtain ⟨h1, h2⟩ := Prod.mk.injEq .. ▸ congrArg id heq
      simp only [Prod.mk.injEq] at heq
      simp [getReg, heq.1, heq.2]
    · by_cases hk : k = sid
      · exfalso
        apply hnd.1
        subst hk
        exact List.mem_map_of_mem Prod.fst hmem
      · simp only [getReg, if_neg hk]
        exact ih hnd.2 hmem

theorem getReg_setReg_self (sid : String) (s v : ScriptSession) :
    ∀ reg : Registry, getReg reg sid = some s →
      getReg (setReg reg sid v) sid = some v := by
  intro reg
  induction reg with
  | nil => intro h; simp [getReg] at h
  | cons p rest ih =>
    intro h
    obtain ⟨k, w⟩ := p
    by_cases hk : k = sid
    · simp [getReg, setReg, if_pos hk]
    · simp only [getReg, if_neg hk] at h
      simp only [setReg, if_neg hk, getReg]
      exact ih h

theorem getReg_eraseReg_ne (k sid : String) (h : k ≠ sid) :
    ∀ reg : Registry, getReg (eraseReg reg k) sid = getReg reg sid := by
  intro reg
  induction reg with
  | nil => rfl
  | cons p rest ih =>
    obtain ⟨k', v⟩ := p
    by_cases hk : k' = k
    · subst hk
      simp [eraseReg, getReg, if_neg h]
    · simp only [eraseReg, if_neg hk, getReg]
      by_cases hs : k' = sid
      · simp [if_pos hs]
      · simp only [if_neg hs]
        exact ih

theorem getReg_eraseReg_self (sid : String) :
    ∀ reg : Registry, keysNodup reg → getReg (eraseReg reg sid) sid = none := by
  intro reg
  induction reg with
  | nil => intro _; rfl
  | cons p rest ih =>
    intro hnd
    obtain ⟨k, v⟩ := p
    simp only [keysNodup, List.map_cons, List.nodup_cons] at hnd
    by_cases hk : k = sid
    · simp only [eraseReg, if_pos hk]
      apply getReg_eq_none_of_not_mem
      rw [← hk]
      exact hnd.1
    · simp only [eraseReg, if_neg hk, getReg, if_neg hk]
      exact ih hnd.2

theorem getReg_eraseReg_none (k sid : String) :
    ∀ reg : Registry, getReg reg sid = none → getReg (eraseReg reg k) sid = none := by
  intro reg
  induction reg with
  | nil => intro _; rfl
  | cons p rest ih =>
    intro h
    obtain ⟨k', v⟩ := p
    by_cases hs : k' = sid
    · simp [getReg, if_pos hs] at h
    · simp only [getReg, if_neg hs] at h
      by_cases hk : k' = k
      · simp only [eraseReg, if_pos hk]
        exact h
      · simp only [eraseReg, if_neg hk, getReg, if_neg hs]
        exact ih h

theorem keys_eraseReg_subset (k x : String) :
    ∀ reg : Registry, x ∈ (eraseReg reg k).map Prod.fst → x ∈ reg.map Prod.fst := by
  intro reg
  induction reg with
  | nil => intro h; simp [eraseReg] at h
  | cons p rest ih =>
    intro h
    obtain ⟨k', v⟩ := p
    by_cases hk : k' = k
    · simp only [eraseReg, if_pos hk] at h
      simp only [List.map_cons, List.mem_cons]
      exact Or.inr h
    · simp only [eraseReg, if_neg hk, List.map_cons, List.mem_cons] at h ⊢
      rcases h with h | h
      · exact Or.inl h
      · exact Or.inr (ih h)

theorem keysNodup_eraseReg (k : String) :
    ∀ reg : Registry, keysNodup reg → keysNodup (eraseReg reg k) := by
  intro reg
  induction reg with
  | nil => intro h; exact h
  | cons p rest ih =>
    intro hnd
    obtain ⟨k', v⟩ := p
    simp only [keysNodup, List.map_cons, List.nodup_cons] at hnd
    by_cases hk : k' = k
    · simp only [eraseReg, if_pos hk]
      exact hnd.2
    · simp only [eraseReg, if_neg hk, keysNodup, List.map_cons, List.nodup_cons]
      exact ⟨fun hmem => hnd.1 (keys_eraseReg_subset k k' rest hmem), ih hnd.2⟩

/-! ### Destroy and sweep lemmas -/

theorem destroy_get_ne (reg : Registry) (k sid : String) (h : k ≠ sid) :
    getReg ((destroy_session reg k).2) sid = getReg reg sid := by
  unfold destroy_session
  cases hget : getReg reg k
  · rfl
  · exact getReg_eraseReg_ne k sid h reg

theorem destroy_get_none (reg : Registry) (k sid : String)
    (h : getReg reg sid = none) :
    getReg ((destroy_session reg k).2) sid = none := by
  unfold destroy_session
  cases hget : getReg reg k
  · exact h
  · exact getReg_eraseReg_none k sid reg h

theorem keysNodup_destroy (reg : Registry) (k : String) (h : keysNodup reg) :
    keysNodup (destroy_session reg k).2 := by
  unfold destroy_session
  cases hget : getReg reg k
  · exact h
  · exact keysNodup_eraseReg k reg h

theorem foldl_destroy_not_mem (sid : String) :
    ∀ (ids : List String) (reg : Registry), sid ∉ ids →
      getReg (ids.foldl (fun r k => (destroy_session r k).2) reg) sid = getReg reg sid := by
  intro ids
  induction ids with
  | nil => intro reg _; rfl
  | cons k rest ih =>
    intro reg h
    simp only [List.mem_cons] at h
    push_neg at h
    simp only [List.foldl_cons]
    rw [ih _ h.2]
    exact destroy_get_ne reg k sid (Ne.symm h.1)

theorem foldl_destroy_none (sid : String) :
    ∀ (ids : List String) (reg : Registry), getReg reg sid = none →
      getReg (ids.foldl (fun r k => (destroy_session r k).2) reg) sid = none := by
  intro ids
  induction ids with
  | nil => intro reg h; exact h
  | cons k rest ih =>
    intro reg h
    simp only [List.foldl_cons]
    exact ih _ (destroy_get_none reg k sid h)

theorem foldl_destroy_mem (sid : String) :
    ∀ (ids : List String) (reg : Registry), keysNodup reg → sid ∈ ids →
      getReg (ids.foldl (fun r k => (destroy_session r k).2) reg) sid = none := by
  intro ids
  induction ids with
  | nil => intro reg _ h; simp at h
  | cons k rest ih =>
    intro reg hnd h
    simp only [List.foldl_cons]
    by_cases hk : k = sid
    · subst hk
      apply foldl_destroy_none
      unfold destroy_session
      cases hget : getReg reg k
      · exact hget
      · exact getReg_eraseReg_self k reg hnd
    · rcases List.mem_cons.1 h with heq | hmem
      · exact absurd heq.symm hk
      · exact ih _ (keysNodup_destroy reg k hnd) hmem

/-! ### Execution-loop lemmas -/

theorem runLoop_exit_ne_spawnError :
    ∀ (es : List LoopEvent) (s : ScriptSession),
      (runLoop es s).2 ≠ RunExit.spawnError := by
  intro es
  induction es with
  | nil => intro s h; simp [runLoop] at h
  | cons e rest ih =>
    intro s
    simp only [runLoop]
    by_cases htime : e.now - s.last_activity > TIMEOUT_SECONDS
    · rw [if_pos htime]
      simp
    · rw [if_neg htime]
      split
      · split
        · exact ih _
        · exact ih _
      · exact ih _
      · simp
      · simp

theorem noneAfterTerminal_cons_of_not_terminal (m : Msg) (l : List Msg)
    (h : m.isTerminal = false) :
    noneAfterTerminal (m :: l) = noneAfterTerminal l := by
  simp [noneAfterTerminal, h]

theorem countMsgs_cons_of_neg (p : Msg → Bool) (m : Msg) (l : List Msg)
    (h : p m = false) :
    countMsgs p (m :: l) = countMsgs p l := by
  simp [countMsgs, List.filter_cons, h]

theorem runLoop_spec :
    ∀ (es : List LoopEvent) (s : ScriptSession),
      ∃ l, (runLoop es s).1.output_queue = s.output_queue ++ l ∧
        countMsgs Msg.isTerminal l = terminalCountOf (runLoop es s).2 ∧
        noneAfterTerminal l = true ∧
        countMsgs Msg.isError l = 0 := by
  intro es
  induction es with
  | nil =>
    intro s
    exact ⟨[], by simp [runLoop, terminalCountOf, countMsgs, noneAfterTerminal]⟩
  | cons e rest ih =>
    intro s
    simp only [runLoop]
    by_cases htime : e.now - s.last_activity > TIMEOUT_SECONDS
    · rw [if_pos htime]
      refine ⟨[Msg.timeout], rfl, ?_, rfl, rfl⟩
      rfl
    · rw [if_neg htime]
      split
      · rename_i t heq
        split
        · exact ih s
        · obtain ⟨l, hq, hc, hn, he⟩ :=
            ih { s with output_queue := s.output_queue ++ [Msg.output t] }
          refine ⟨Msg.output t :: l, ?_, ?_, ?_, ?_⟩
          · rw [hq]; simp
          · rw [countMsgs_cons_of_neg _ _ _ rfl]; exact hc
          · rw [noneAfterTerminal_cons_of_not_terminal (Msg.output t) l rfl]; exact hn
          · rw [countMsgs_cons_of_neg _ _ _ rfl]; exact he
      · exact ih s
      · rename_i ec heq
        exact ⟨[Msg.exit (ec.getD 0)], rfl, rfl, rfl, rfl⟩
      · exact ⟨[], by simp [terminalCountOf, countMsgs, noneAfterTerminal]⟩

theorem runFinally_queue (p : ScriptSession × RunExit) :
    (runFinally p).1.output_queue = p.1.output_queue := by
  rcases p with ⟨s, ex⟩
  rcases h : s.process with _ | b
  · simp [runFinally, h]
  · cases b <;> simp [runFinally, h]

theorem runFinally_exit (p : ScriptSession × RunExit) :
    (runFinally p).2 = p.2 := by
  rcases p with ⟨s, ex⟩
  rcases h : s.process with _ | b
  · simp [runFinally, h]
  · cases b <;> simp [runFinally, h]

theorem runFinally_not_running (p : ScriptSession × RunExit) :
    (runFinally p).1.is_running = false := by
  rcases p with ⟨s, ex⟩
  rcases h : s.process with _ | b
  · simp [runFinally, h]
  · cases b <;> simp [runFinally, h]

theorem runFinally_not_alive (p : ScriptSession × RunExit) :
    aliveB (runFinally p).1.process = false := by
  rcases p with ⟨s, ex⟩
  rcases h : s.process with _ | b
  · simp [runFinally, h, aliveB]
  · cases b <;> simp [runFinally, h, aliveB]

theorem runScript_spec (spawn : SpawnResult) (startNow : Int)
    (events : List LoopEvent) (s : ScriptSession) :
    ∃ l, (runScript spawn startNow events s).1.output_queue = s.output_queue ++ l ∧
      countMsgs Msg.isTerminal l = terminalCountOf (runScript spawn startNow events s).2 ∧
      noneAfterTerminal l = true ∧
      countMsgs Msg.isError l =
        (if (runScript spawn startNow events s).2 = RunExit.spawnError then 1 else 0) := by
  cases spawn with
  | fail msg =>
    refine ⟨[Msg.error ("Błąd wykonania skryptu: " ++ msg)], ?_, ?_, ?_, ?_⟩
    · rw [runScript, runFinally_queue]
    · rw [runScript, runFinally_exit]; rfl
    · rfl
    · rw [runScript, runFinally_exit]; rfl
  | ok =>
    obtain ⟨l, hq, hc, hn, he⟩ :=
      runLoop_spec events
        { s with process := some true, is_running := true, last_activity := startNow }
    refine ⟨l, ?_, ?_, hn, ?_⟩
    · rw [runScript, runFinally_queue]; exact hq
    · rw [runScript, runFinally_exit]; exact hc
    · rw [runScript, runFinally_exit,
        if_neg (runLoop_exit_ne_spawnError events _)]
      exact he

theorem newMsgs_of_append (s s2 : ScriptSession) (l : List Msg)
    (h : s2.output_queue = s.output_queue ++ l) : newMsgs s s2 = l := by
  unfold newMsgs
  rw [h, List.drop_left]

/-! ### Claims -/

/-- C1 (amended): in an iteration of the execution loop, the
inactivity-timeout condition is evaluated at the top of the iteration,
before the read that would observe EOF; when the window has expired at
iteration start the loop appends a `timeout` message and stops, whatever
the pending read would have returned. -/
theorem c1_timeout_checked_before_read (e : LoopEvent) (es : List LoopEvent)
    (s : ScriptSession) (h : e.now - s.last_activity > TIMEOUT_SECONDS) :
    (runLoop (e :: es) s).2 = RunExit.timedOut ∧
    (runLoop (e :: es) s).1.output_queue = s.output_queue ++ [Msg.timeout] := by
  simp only [runLoop]
  rw [if_pos h]
  exact ⟨rfl, rfl⟩

/-- C1 witness: concrete iteration whose window has expired. -/
theorem c1_timeout_checked_before_read_witness :
    (runLoop [⟨301, ReadResult.eof (some 0)⟩] (mkSession "s" "a.py" 0)).2 =
      RunExit.timedOut ∧
    (runLoop [⟨301, ReadResult.eof (some 0)⟩] (mkSession "s" "a.py" 0)).1.output_queue =
      [Msg.timeout] := by
  have h := c1_timeout_checked_before_read ⟨301, ReadResult.eof (some 0)⟩ []
    (mkSession "s" "a.py" 0) (by decide)
  simpa using h

/-- C1 counterexample: a run whose process has already finished (the read
would report EOF with exit status 0) but whose inactivity window has
expired appends a `timeout` message, not an `exit` message. -/
theorem c1_finished_process_reported_timeout :
    (runScript SpawnResult.ok 0 [⟨301, ReadResult.eof (some 0)⟩]
        (mkSession "s" "a.py" 0)).1.output_queue = [Msg.timeout] ∧
    (runScript SpawnResult.ok 0 [⟨301, ReadResult.eof (some 0)⟩]
        (mkSession "s" "a.py" 0)).2 = RunExit.timedOut := by decide

/-- C2 (amended): every run appends at most one terminal message and no
message of any kind follows it; runs ending by timeout, by EOF or by a
spawn failure append exactly one, but a run ended by the inner read
exception handler appends none. -/
theorem c2_at_most_one_terminal_message (spawn : SpawnResult) (startNow : Int)
    (events : List LoopEvent) (s : ScriptSession) :
    (runScript spawn startNow events s).1.output_queue =
      s.output_queue ++ newMsgs s (runScript spawn startNow events s).1 ∧
    countMsgs Msg.isTerminal (newMsgs s (runScript spawn startNow events s).1) ≤ 1 ∧
    noneAfterTerminal (newMsgs s (runScript spawn startNow events s).1) = true ∧
    ((runScript spawn startNow events s).2 = RunExit.timedOut ∨
     (runScript spawn startNow events s).2 = RunExit.exited ∨
     (runScript spawn startNow events s).2 = RunExit.spawnError →
       countMsgs Msg.isTerminal (newMsgs s (runScript spawn startNow events s).1) = 1) ∧
    ((runScript spawn startNow events s).2 = RunExit.readError →
       countMsgs Msg.isTerminal (newMsgs s (runScript spawn startNow events s).1) = 0) := by
  obtain ⟨l, hq, hc, hn, he⟩ := runScript_spec spawn startNow events s
  have hl := newMsgs_of_append s _ l hq
  rw [hl]
  refine ⟨hq, ?_, hn, ?_, ?_⟩
  · rw [hc]
    cases h : (runScript spawn startNow events s).2 <;> simp [terminalCountOf]
  · intro hex
    rw [hc]
    rcases hex with h | h | h <;> rw [h] <;> rfl
  · intro hex
    rw [hc, hex]
    rfl

/-- C2 witness: a run that reaches EOF appends exactly one terminal
message. -/
theorem c2_at_most_one_terminal_message_witness :
    countMsgs Msg.isTerminal
      (newMsgs (mkSession "s" "a.py" 0)
        (runScript SpawnResult.ok 0 [⟨1, ReadResult.eof (some 0)⟩]
          (mkSession "s" "a.py" 0)).1) = 1 :=
  (c2_at_most_one_terminal_message SpawnResult.ok 0 [⟨1, ReadResult.eof (some 0)⟩]
    (mkSession "s" "a.py" 0)).2.2.2.1 (by decide)

/-- C2 counterexample: a run ended by the inner read-exception handler
appends no message at all, so no terminal message is appended for it,
refuting "exactly one terminal message per run". -/
theorem c2_read_failure_appends_no_terminal :
    (runScript SpawnResult.ok 0 [⟨1, ReadResult.exn "boom"⟩]
        (mkSession "s" "a.py" 0)).1.output_queue = [] ∧
    (runScript SpawnResult.ok 0 [⟨1, ReadResult.exn "boom"⟩]
        (mkSession "s" "a.py" 0)).2 = RunExit.readError := by decide

/-- C3 (amended): every failure is caught and ends the loop with a defined
final state (the worker never propagates); a spawn failure appends exactly
one `error` message, but an unexpected failure raised by the read while
the process is active is swallowed by the inner handler: the loop ends
with no `error` message — indeed no terminal message — appended. -/
theorem c3_failures_caught_spawn_error_queued (spawn : SpawnResult)
    (startNow : Int) (events : List LoopEvent) (s : ScriptSession) :
    ((runScript spawn startNow events s).2 = RunExit.spawnError →
       countMsgs Msg.isError (newMsgs s (runScript spawn startNow events s).1) = 1) ∧
    ((runScript spawn startNow events s).2 ≠ RunExit.spawnError →
       countMsgs Msg.isError (newMsgs s (runScript spawn startNow events s).1) = 0) ∧
    ((runScript spawn startNow events s).2 = RunExit.readError →
       countMsgs Msg.isTerminal (newMsgs s (runScript spawn startNow events s).1) = 0) := by
  obtain ⟨l, hq, hc, hn, he⟩ := runScript_spec spawn startNow events s
  have hl := newMsgs_of_append s _ l hq
  rw [hl]
  refine ⟨?_, ?_, ?_⟩
  · intro hex
    rw [he, if_pos hex]
  · intro hex
    rw [he, if_neg hex]
  · intro hex
    rw [hc, hex]
    rfl

/-- C3 witness: a spawn failure appends exactly one `error` message. -/
theorem c3_failures_caught_spawn_error_queued_witness :
    countMsgs Msg.isError
      (newMsgs (mkSession "s" "a.py" 0)
        (runScript (SpawnResult.fail "spawn failed") 0 []
          (mkSession "s" "a.py" 0)).1) = 1 :=
  (c3_failures_caught_spawn_error_queued (SpawnResult.fail "spawn failed") 0 []
    (mkSession "s" "a.py" 0)).1 (by decide)

/-- C3 counterexample: an unexpected read failure while the process is
active ends the loop with an empty queue — no `error` message is appended,
refuting the claim as stated. -/
theorem c3_read_failure_appends_no_error :
    (runScript SpawnResult.ok 0 [⟨1, ReadResult.exn "oops"⟩]
        (mkSession "s" "a.py" 0)).1.output_queue = [] ∧
    (runScript SpawnResult.ok 0 [⟨1, ReadResult.exn "oops"⟩]
        (mkSession "s" "a.py" 0)).2 = RunExit.readError := by decide

/-- C4: draining a registered session returns the queue contents in
production order, leaves the session registered with an empty queue, and a
second immediate drain returns the empty sequence. -/
theorem c4_drain_returns_and_clears (reg : Registry) (sid : String)
    (s : ScriptSession) (h : getReg reg sid = some s) :
    (get_output reg sid).1 = s.output_queue ∧
    getReg (get_output reg sid).2 sid = some { s with output_queue := [] } ∧
    (get_output (get_output reg sid).2 sid).1 = [] := by
  have h2 := getReg_setReg_self sid s { s with output_queue := [] } reg h
  simp only [get_output, h, h2]
  exact ⟨trivial, trivial, trivial⟩

/-- C4 witness: draining a concrete two-message queue. -/
theorem c4_drain_returns_and_clears_witness :
    (get_output [("sid", { mkSession "sid" "a.py" 0 with
        output_queue := [Msg.output "hi", Msg.exit 0] })] "sid").1 =
      [Msg.output "hi", Msg.exit 0] ∧
    (get_output (get_output [("sid", { mkSession "sid" "a.py" 0 with
        output_queue := [Msg.output "hi", Msg.exit 0] })] "sid").2 "sid").1 = [] := by
  have h := c4_drain_returns_and_clears
    [("sid", { mkSession "sid" "a.py" 0 with
        output_queue := [Msg.output "hi", Msg.exit 0] })] "sid"
    { mkSession "sid" "a.py" 0 with output_queue := [Msg.output "hi", Msg.exit 0] }
    (by decide)
  exact ⟨h.1, h.2.2⟩

/-- C5: destroying a registered id returns `true` and removes the entry so
a later lookup finds nothing; destroying an unknown id returns `false` and
leaves the registry unchanged; a second destroy of the same id returns
`false`. (The model is a total function: no exception is possible.) -/
theorem c5_destroy_idempotent_removal (reg : Registry) (sid : String)
    (hnd : keysNodup reg) :
    (getReg reg sid = none → destroy_session reg sid = (false, reg)) ∧
    (∀ s, getReg reg sid = some s →
      (destroy_session reg sid).1 = true ∧
      getReg (destroy_session reg sid).2 sid = none ∧
      (destroy_session (destroy_session reg sid).2 sid).1 = false) := by
  constructor
  · intro h
    simp only [destroy_session, h]
  · intro s h
    have h1 : destroy_session reg sid = (true, eraseReg reg sid) := by
      simp only [destroy_session, h]
    have h2 : getReg (eraseReg reg sid) sid = none :=
      getReg_eraseReg_self sid reg hnd
    rw [h1]
    refine ⟨rfl, h2, ?_⟩
    simp only [destroy_session, h2]

/-- C5 witness: a concrete singleton registry. -/
theorem c5_destroy_idempotent_removal_witness :
    (destroy_session [("sid", mkSession "sid" "a.py" 0)] "sid").1 = true ∧
    getReg (destroy_session [("sid", mkSession "sid" "a.py" 0)] "sid").2 "sid" = none ∧
    (destroy_session
      (destroy_session [("sid", mkSession "sid" "a.py" 0)] "sid").2 "sid").1 = false :=
  (c5_destroy_idempotent_removal [("sid", mkSession "sid" "a.py" 0)] "sid"
    (by decide)).2 (mkSession "sid" "a.py" 0) (by decide)

/-- C6: starting an unknown session or an already-running session returns
`false` and leaves the registry unchanged; starting a registered
non-running session empties the queue, clears the exit code, stamps
`last_activity`, launches the worker thread and returns `true`. -/
theorem c6_start_resets_state (reg : Registry) (sid : String) (now : Int) :
    (getReg reg sid = none → start_execution reg sid now = (false, reg)) ∧
    (∀ s, getReg reg sid = some s → s.is_running = true →
       start_execution reg sid now = (false, reg)) ∧
    (∀ s, getReg reg sid = some s → s.is_running = false →
       (start_execution reg sid now).1 = true ∧
       getReg (start_execution reg sid now).2 sid =
         some { s with output_queue := [], exit_code := none,
                       last_activity := now, thread := true }) := by
  refine ⟨?_, ?_, ?_⟩
  · intro h
    simp only [start_execution, h]
  · intro s h hrun
    simp only [start_execution, h, hrun, if_true]
  · intro s h hrun
    have h2 := getReg_setReg_self sid s
      { s with output_queue := [], exit_code := none,
               last_activity := now, thread := true } reg h
    rw [hrun] at h2
    simp [start_execution, h, hrun, h2]

/-- C6 witness: starting a concrete idle session. -/
theorem c6_start_resets_state_witness :
    (start_execution [("sid", { mkSession "sid" "a.py" 0 with
        output_queue := [Msg.exit 0], exit_code := some 0 })] "sid" 42).1 = true ∧
    getReg (start_execution [("sid", { mkSession "sid" "a.py" 0 with
        output_queue := [Msg.exit 0], exit_code := some 0 })] "sid" 42).2 "sid" =
      some { mkSession "sid" "a.py" 0 with
        output_queue := [], exit_code := none,
        last_activity := 42, thread := true } := by
  have h := (c6_start_resets_state [("sid", { mkSession "sid" "a.py" 0 with
      output_queue := [Msg.exit 0], exit_code := some 0 })] "sid" 42).2.2
    { mkSession "sid" "a.py" 0 with output_queue := [Msg.exit 0], exit_code := some 0 }
    (by decide) (by decide)
  exact ⟨h.1, by rw [h.2]⟩

/-- C7: the idle sweep removes exactly the registered sessions that are not
running and whose `last_activity` is older than `max_age`; every other
registered session — in particular every running one — survives with its
state intact. -/
theorem c7_sweep_removes_exactly_old_idle (reg : Registry)
    (now max_age : Int) (sid : String) (s : ScriptSession)
    (hnd : keysNodup reg) (h : getReg reg sid = some s) :
    getReg (cleanup_old_sessions reg now max_age) sid =
      if now - s.last_activity > max_age ∧ s.is_running = false
      then none else some s := by
  unfold cleanup_old_sessions
  by_cases hcond : now - s.last_activity > max_age ∧ s.is_running = false
  · rw [if_pos hcond]
    apply foldl_destroy_mem sid _ reg hnd
    refine List.mem_map.2 ⟨(sid, s), ?_, rfl⟩
    refine List.mem_filter.2 ⟨getReg_some_mem sid s reg h, ?_⟩
    simp [hcond.1, hcond.2]
  · rw [if_neg hcond]
    rw [foldl_destroy_not_mem sid _ reg ?_]
    · exact h
    · intro hmem
      obtain ⟨⟨k, v⟩, hmemf, hfst⟩ := List.mem_map.1 hmem
      obtain ⟨hmemreg, hpred⟩ := List.mem_filter.1 hmemf
      simp only at hfst
      subst hfst
      have hv : getReg reg k = some v := mem_getReg_of_nodup k v reg hnd hmemreg
      rw [h] at hv
      obtain rfl : s = v := by injection hv
      simp only [Bool.and_eq_true, decide_eq_true_eq, Bool.not_eq_true'] at hpred
      exact hcond hpred

/-- C7 witness: an old idle session is removed and an equally old running
session survives. -/
theorem c7_sweep_removes_exactly_old_idle_witness :
    getReg (cleanup_old_sessions [("sid", mkSession "sid" "a.py" 0)] 3700 3600)
      "sid" = none ∧
    getReg (cleanup_old_sessions
      [("sid", { mkSession "sid" "a.py" 0 with is_running := true })] 3700 3600)
      "sid" = some { mkSession "sid" "a.py" 0 with is_running := true } := by
  have h1 := c7_sweep_removes_exactly_old_idle
    [("sid", mkSession "sid" "a.py" 0)] 3700 3600 "sid"
    (mkSession "sid" "a.py" 0) (by decide) (by decide)
  have h2 := c7_sweep_removes_exactly_old_idle
    [("sid", { mkSession "sid" "a.py" 0 with is_running := true })] 3700 3600 "sid"
    { mkSession "sid" "a.py" 0 with is_running := true } (by decide) (by decide)
  exact ⟨by simpa using h1, by simpa using h2⟩

/-- C8: whatever path ends a run of `_run_script` — timeout, EOF, read
failure, spawn failure, or an externally killed process — after the
`finally:` block the session's running flag is false and its process
handle denotes no live process. -/
theorem c8_loop_completion_kills_process (spawn : SpawnResult) (startNow : Int)
    (events : List LoopEvent) (s : ScriptSession) :
    (runScript spawn startNow events s).1.is_running = false ∧
    aliveB (runScript spawn startNow events s).1.process = false := by
  unfold runScript
  exact ⟨runFinally_not_running _, runFinally_not_alive _⟩

/-- C9: draining an unknown (or already destroyed) session id returns the
empty sequence and leaves the registry unchanged; no error is signalled. -/
theorem c9_drain_unknown_returns_empty (reg : Registry) (sid : String)
    (h : getReg reg sid = none) :
    get_output reg sid = ([], reg) := by
  simp only [get_output, h]

/-- C9 witness: draining a never-registered id. -/
theorem c9_drain_unknown_returns_empty_witness :
    get_output [] "nonexistent-session-id" = ([], []) :=
  c9_drain_unknown_returns_empty [] "nonexistent-session-id" (by decide)

/-- C10: when the loop observes EOF and the exit status is unavailable, the
appended `exit` message carries code 0 while the session's `exit_code`
field is left as `none`. -/
theorem c10_eof_without_status (e : LoopEvent) (es : List LoopEvent)
    (s : ScriptSession) (h1 : ¬e.now - s.last_activity > TIMEOUT_SECONDS)
    (h2 : e.read = ReadResult.eof none) :
    (runLoop (e :: es) s).1.exit_code = none ∧
    (runLoop (e :: es) s).1.output_queue = s.output_queue ++ [Msg.exit 0] ∧
    (runLoop (e :: es) s).2 = RunExit.exited := by
  simp only [runLoop]
  rw [if_neg h1, h2]
  exact ⟨rfl, rfl, rfl⟩

/-- C10 witness: a concrete EOF with no exit status. -/
theorem c10_eof_without_status_witness :
    (runLoop [⟨10, ReadResult.eof none⟩] (mkSession "s" "a.py" 0)).1.exit_code =
      none ∧
    (runLoop [⟨10, ReadResult.eof none⟩] (mkSession "s" "a.py" 0)).1.output_queue =
      [Msg.exit 0] := by
  have h := c10_eof_without_status ⟨10, ReadResult.eof none⟩ []
    (mkSession "s" "a.py" 0) (by decide) rfl
  exact ⟨h.1, by simpa using h.2.1⟩

end ScriptRunner
